import Mathlib

/-!
Verification of the async-ia file-ingestion and AI-completion services.

The development shallowly embeds the two in-scope components of the
repository:

* `FileProcessorService` from `src/services/file_processor.py`
  (`process_files`, `_validate_file`, `_process_single_file`), together with
  the extension extraction performed through `pathlib.Path(...).suffix` and
  the configured allow-set from `src/core/config.py`;
* `AIService` from `src/services/ai_service.py` (`generate_completion`,
  `_build_full_prompt`, `_parse_json_response`), together with faithful
  models of Python's `json.loads` and of the brace-extraction regex
  `\x7b(?:[^\x7b\x7d]|(?:\x7b(?:[^\x7b\x7d]|\x7b[^\x7b\x7d]*\x7d)*\x7d))*\x7d`.

External collaborators that are not code of this repository (the UTF-8
lossy decoder used when reading a temporary file back, the network client,
the operating system) appear as explicit parameters, so every theorem
quantifies over their behaviour.  I/O performed by the file processor is
recorded in an explicit event trace, which makes the temp-file lifecycle
and the "no read before validation" property observable.
-/

/-- An HTTP error as raised by the web framework (`fastapi.HTTPException`):
a status code and a detail string. -/
structure HTTPException where
  status_code : Nat
  detail : String
  deriving DecidableEq, Repr

/-- Observable file-system events performed by the file processor: the
temporary-file lifecycle (`tempfile.NamedTemporaryFile`, `aiofiles` write and
read-back, `os.unlink`) and the read of the uploaded file itself. -/
inductive FileEvent where
  | tempCreate (path : String)
  | readUpload (filename : String)
  | tempWrite (path : String)
  | tempRead (path : String)
  | tempUnlink (path : String)
  deriving DecidableEq, Repr

/-- An uploaded file (`fastapi.UploadFile`): its filename, its raw byte
content, and whether `file.read()` succeeds (it may raise an I/O error).
An empty filename models Python's falsy filename (`None` or `''`). -/
structure UploadFile where
  filename : String
  bytes : List Nat
  readOk : Bool
  deriving DecidableEq, Repr

/-- Split a character list on `'/'`, the posix path separator, the way
`pathlib` splits a path into components. -/
def splitSlash : List Char → List (List Char)
  | [] => [[]]
  | c :: cs =>
      if c = '/' then [] :: splitSlash cs
      else
        match splitSlash cs with
        | [] => [[c]]
        | p :: ps => (c :: p) :: ps

/-- `pathlib.Path(...).name`: the last non-empty `'/'`-separated component. -/
def pathLastComponent (cs : List Char) : List Char :=
  ((splitSlash cs).filter (fun p => !p.isEmpty)).getLastD []

/-- `str.rfind('.')` on a name: index of the last dot, if any. -/
def rfindDot : List Char → Option Nat
  | [] => none
  | c :: cs =>
      match rfindDot cs with
      | some i => some (i + 1)
      | none => if c = '.' then some 0 else none

/-- `pathlib.Path(...).suffix` on the final component: the part of the name
from its last dot (dot included), unless that dot is the first or the last
character of the name, in which case the suffix is empty. -/
def pySuffix (name : List Char) : List Char :=
  match rfindDot name with
  | none => []
  | some i => if 0 < i ∧ i < name.length - 1 then name.drop i else []

/-- `Path(file.filename).suffix.lower().lstrip('.')` from `_validate_file`. -/
def file_extension (filename : String) : String :=
  String.mk (((pySuffix (pathLastComponent filename.toList)).map Char.toLower).dropWhile
    (fun c => c == '.'))

/-- The allow-set of file extensions from `Settings.allowed_extensions` in
`src/core/config.py` (membership is all that matters for the service). -/
def allowed_extensions : List String :=
  ["txt", "csv", "json", "md", "py", "js", "ts", "html", "xml", "pdf", "xlsx", "docx", "odt"]

/-- `Settings.max_file_size_bytes` from `src/core/config.py`. -/
def max_file_size_bytes (max_file_size_mb : Nat) : Nat :=
  max_file_size_mb * 1024 * 1024

/-- `FileProcessorService._validate_file`: reject an empty filename, then
reject a file whose extracted extension is not in the allow-set. -/
def validate_file (allowed : List String) (f : UploadFile) : Except HTTPException Unit :=
  if f.filename = "" then
    .error ⟨400, "Nome do arquivo não pode ser vazio."⟩
  else if allowed.contains (file_extension f.filename) then
    .ok ()
  else
    .error ⟨400, "Tipo de arquivo não permitido: " ++ file_extension f.filename ++ ". "⟩

/-- The sequential validation loop at the start of `process_files`: it raises
the first validation error and touches no file content. -/
def validate_all (allowed : List String) : List UploadFile → Except HTTPException Unit
  | [] => .ok ()
  | f :: rest =>
      match validate_file allowed f with
      | .error e => .error e
      | .ok _ => validate_all allowed rest

/-- A Python exception inside the per-file try block of
`_process_single_file`: either an `HTTPException` (the size-limit check) or
any other exception (e.g. an I/O failure while reading the upload). -/
inductive PyExn where
  | httpExc (status_code : Nat) (detail : String)
  | otherExc (msg : String)
  deriving DecidableEq, Repr

/-- Result of `_process_single_file`.  The try block reads the upload (which
may raise), raises `HTTPException(400, ...)` when the byte length exceeds the
configured maximum, and otherwise writes the bytes to the temporary file and
reads them back as text; the byte round trip makes the text `decode f.bytes`,
where `decode` is the external UTF-8 lossy decoder
(`open(..., encoding='utf-8', errors='ignore')`).  The enclosing
`except Exception` clause turns every exception — including the 400 size
error — into `HTTPException(500, 'Erro interno ao processar o arquivo.')`. -/
def single_result (maxSize : Nat) (decode : List Nat → String) (f : UploadFile) :
    Except HTTPException (String × String) :=
  let tryBody : Except PyExn (String × String) :=
    if f.readOk = false then .error (.otherExc "read failed")
    else if maxSize < f.bytes.length then
      .error (.httpExc 400 "Tamanho do arquivo excede o limite permitido.")
    else .ok (f.filename, decode f.bytes)
  match tryBody with
  | .ok r => .ok r
  | .error _ => .error ⟨500, "Erro interno ao processar o arquivo."⟩

/-- File-system events of one run of `_process_single_file`: the temporary
file is created first (`delete=False`), the upload is read, on success the
temporary file is written and read back, and the `finally` block always
unlinks the temporary file (which exists, having just been created). -/
def single_trace (maxSize : Nat) (f : UploadFile) (tempPath : String) : List FileEvent :=
  let body : List FileEvent :=
    if f.readOk = false then [.readUpload f.filename]
    else if maxSize < f.bytes.length then [.readUpload f.filename]
    else [.readUpload f.filename, .tempWrite tempPath, .tempRead tempPath]
  .tempCreate tempPath :: body ++ [.tempUnlink tempPath]

/-- `FileProcessorService._process_single_file`: its result and the trace of
file-system events it performs. -/
def process_single_file (maxSize : Nat) (decode : List Nat → String) (f : UploadFile)
    (tempPath : String) : Except HTTPException (String × String) × List FileEvent :=
  (single_result maxSize decode f, single_trace maxSize f tempPath)

/-- `asyncio.gather(*tasks, return_exceptions=True)` over one task per file:
results come back indexed in task order regardless of completion order, and
the tasks share no mutable state (task `i` owns the fresh path `tempPath i`),
so the concurrent execution is observationally this sequential composition,
with the traces concatenated in task order as one possible interleaving. -/
def gather_tasks (maxSize : Nat) (decode : List Nat → String) (tempPath : Nat → String) :
    List UploadFile → Nat → List (Except HTTPException (String × String)) × List FileEvent
  | [], _ => ([], [])
  | f :: rest, i =>
      ((process_single_file maxSize decode f (tempPath i)).1 ::
        (gather_tasks maxSize decode tempPath rest (i + 1)).1,
       (process_single_file maxSize decode f (tempPath i)).2 ++
        (gather_tasks maxSize decode tempPath rest (i + 1)).2)

/-- The aggregation loop of `process_files`: scan the gathered results in
input order and raise `HTTPException(400, ...)` at the first exception, with
a message embedding `str(exc) = "<status>: <detail>"`; otherwise collect the
filenames and the decoded contents, in order. -/
def collect_results :
    List (UploadFile × Except HTTPException (String × String)) →
    Except HTTPException (List String × List String)
  | [] => .ok ([], [])
  | (f, .error e) :: _ =>
      .error ⟨400, "Erro ao processar o arquivo " ++ f.filename ++ ": : " ++
        toString e.status_code ++ ": " ++ e.detail⟩
  | (_, .ok (name, content)) :: rest =>
      match collect_results rest with
      | .error e => .error e
      | .ok (names, contents) => .ok (name :: names, content :: contents)

/-- `FileProcessorService.process_files`: an empty input returns
`([], '')`; otherwise every file is validated sequentially (the first
validation error aborts before any read), then the per-file tasks run, then
the results are aggregated in input order and the contents joined with
newlines.  The second component is the trace of file-system events. -/
def process_files (maxSize : Nat) (allowed : List String) (decode : List Nat → String)
    (files : List UploadFile) (tempPath : Nat → String) :
    Except HTTPException (List String × String) × List FileEvent :=
  if files.isEmpty then (.ok ([], ""), [])
  else
    match validate_all allowed files with
    | .error e => (.error e, [])
    | .ok _ =>
        match collect_results (files.zip (gather_tasks maxSize decode tempPath files 0).1) with
        | .error e => (.error e, (gather_tasks maxSize decode tempPath files 0).2)
        | .ok (names, contents) =>
            (.ok (names, String.intercalate "\n" contents),
             (gather_tasks maxSize decode tempPath files 0).2)

/-- Paths of the `tempCreate` events of a trace, in order. -/
def temp_creates (tr : List FileEvent) : List String :=
  tr.filterMap fun e => match e with | .tempCreate p => some p | _ => none

/-- Paths of the `tempUnlink` events of a trace, in order. -/
def temp_unlinks (tr : List FileEvent) : List String :=
  tr.filterMap fun e => match e with | .tempUnlink p => some p | _ => none

/-- JSON values as produced by Python's `json.loads`.  Numbers are kept as
exact decimals `mantissa * 10 ^ exponent` (Python's int/float distinction and
IEEE rounding are not modelled); objects keep insertion order, a duplicate
key keeping its first position and last value, as Python dicts do;
`nonFinite` covers the `NaN` / `Infinity` / `-Infinity` extensions accepted
by Python's parser. -/
inductive JsonValue where
  | null
  | bool (b : Bool)
  | num (mantissa : Int) (exponent : Int)
  | str (s : String)
  | arr (elems : List JsonValue)
  | obj (fields : List (String × JsonValue))
  | nonFinite (s : String)

/-- Whether a Python json value is a dict (a string-keyed mapping). -/
def JsonValue.isObj : JsonValue → Bool
  | .obj _ => true
  | _ => false

/-- JSON whitespace, as skipped by Python's json scanner. -/
def isJsonWs (c : Char) : Bool :=
  c == ' ' || c == '\t' || c == '\n' || c == '\r'

/-- Drop leading JSON whitespace. -/
def skipWs (cs : List Char) : List Char :=
  cs.dropWhile isJsonWs

/-- Python `str.strip()` whitespace (the ASCII part; `str.strip` also strips
some further Unicode spaces, which no claim exercises). -/
def isPyWs (c : Char) : Bool :=
  c == ' ' || c == '\t' || c == '\n' || c == '\r' || c == '\x0b' || c == '\x0c'

/-- Python `content.strip()`: remove leading and trailing whitespace. -/
def pyStrip (s : String) : String :=
  String.mk (((s.toList.dropWhile isPyWs).reverse.dropWhile isPyWs).reverse)

/-- Value of a hexadecimal digit. -/
def hexDigitVal (c : Char) : Option Nat :=
  if '0' ≤ c ∧ c ≤ '9' then some (c.toNat - '0'.toNat)
  else if 'a' ≤ c ∧ c ≤ 'f' then some (c.toNat - 'a'.toNat + 10)
  else if 'A' ≤ c ∧ c ≤ 'F' then some (c.toNat - 'A'.toNat + 10)
  else none

/-- Single-character JSON string escapes. -/
def escChar : Char → Option Char
  | '"' => some '"'
  | '\\' => some '\\'
  | '/' => some '/'
  | 'b' => some (Char.ofNat 8)
  | 'f' => some (Char.ofNat 12)
  | 'n' => some '\n'
  | 'r' => some '\r'
  | 't' => some '\t'
  | _ => none

/-- Body of a JSON string after the opening quote, in Python's default strict
mode: raw control characters are rejected, escapes are as in the json module,
and `\uXXXX` surrogate pairs are combined.  (A lone surrogate is rejected
here, where Python would keep it in the str; no claim exercises that.) -/
def parseStringBody : Nat → List Char → Option (List Char × List Char)
  | 0, _ => none
  | _ + 1, [] => none
  | fuel + 1, c :: rest =>
      if c == '"' then some ([], rest)
      else if c == '\\' then
        match rest with
        | [] => none
        | e :: rest1 =>
            if e == 'u' then
              match rest1 with
              | h1 :: h2 :: h3 :: h4 :: rest2 =>
                  match hexDigitVal h1, hexDigitVal h2, hexDigitVal h3, hexDigitVal h4 with
                  | some a, some b, some c1, some d =>
                      let code := ((a * 16 + b) * 16 + c1) * 16 + d
                      if 0xD800 ≤ code ∧ code ≤ 0xDBFF then
                        match rest2 with
                        | '\\' :: 'u' :: g1 :: g2 :: g3 :: g4 :: rest3 =>
                            match hexDigitVal g1, hexDigitVal g2, hexDigitVal g3, hexDigitVal g4 with
                            | some a2, some b2, some c2, some d2 =>
                                let code2 := ((a2 * 16 + b2) * 16 + c2) * 16 + d2
                                if 0xDC00 ≤ code2 ∧ code2 ≤ 0xDFFF then
                                  match parseStringBody fuel rest3 with
                                  | some (tail, r) =>
                                      some (Char.ofNat
                                        (0x10000 + (code - 0xD800) * 0x400 + (code2 - 0xDC00)) ::
                                          tail, r)
                                  | none => none
                                else none
                            | _, _, _, _ => none
                        | _ => none
                      else if 0xDC00 ≤ code ∧ code ≤ 0xDFFF then none
                      else
                        match parseStringBody fuel rest2 with
                        | some (tail, r) => some (Char.ofNat code :: tail, r)
                        | none => none
                  | _, _, _, _ => none
              | _ => none
            else
              match escChar e with
              | none => none
              | some ec =>
                  match parseStringBody fuel rest1 with
                  | some (tail, r) => some (ec :: tail, r)
                  | none => none
      else if c.toNat < 0x20 then none
      else
        match parseStringBody fuel rest with
        | some (tail, r) => some (c :: tail, r)
        | none => none

/-- Numeric value of a digit string. -/
def digitsToNat (ds : List Char) : Nat :=
  ds.foldl (fun acc c => acc * 10 + (c.toNat - '0'.toNat)) 0

/-- Integer part of json's NUMBER_RE, alternation `0|[1-9][0-9]*`:
a lone `0`, or a nonzero digit followed by digits. -/
def parseIntDigits : List Char → Option (List Char × List Char)
  | '0' :: rest => some (['0'], rest)
  | c :: rest =>
      if c.isDigit then some (c :: rest.takeWhile Char.isDigit, rest.dropWhile Char.isDigit)
      else none
  | [] => none

/-- Optional fraction part of NUMBER_RE: consumed only when a dot with at
least one following digit is present. -/
def parseFracDigits (cs : List Char) : List Char × List Char :=
  match cs with
  | '.' :: rest =>
      let ds := rest.takeWhile Char.isDigit
      if ds.isEmpty then ([], cs) else (ds, rest.dropWhile Char.isDigit)
  | _ => ([], cs)

/-- Optional exponent part of NUMBER_RE: consumed only when well formed. -/
def parseExp (cs : List Char) : Int × List Char :=
  match cs with
  | e :: rest =>
      if e == 'e' || e == 'E' then
        let signed : Int × List Char :=
          match rest with
          | '+' :: r => (1, r)
          | '-' :: r => (-1, r)
          | _ => (1, rest)
        let ds := signed.2.takeWhile Char.isDigit
        if ds.isEmpty then (0, cs)
        else (signed.1 * (digitsToNat ds : Int), signed.2.dropWhile Char.isDigit)
      else (0, cs)
  | [] => (0, cs)

/-- A JSON number per json's NUMBER_RE, as an exact decimal. -/
def parseNumber (cs : List Char) : Option (JsonValue × List Char) :=
  let signed : Bool × List Char :=
    match cs with
    | '-' :: r => (true, r)
    | _ => (false, cs)
  match parseIntDigits signed.2 with
  | none => none
  | some (ipart, cs2) =>
      let fres := parseFracDigits cs2
      let eres := parseExp fres.2
      let mAbs : Nat := digitsToNat (ipart ++ fres.1)
      some (.num (if signed.1 then -(mAbs : Int) else (mAbs : Int))
        (eres.1 - (fres.1.length : Int)), eres.2)

/-- Python dict construction over parsed key/value pairs: a duplicate key
keeps its first position and takes the last value. -/
def dictInsert (acc : List (String × JsonValue)) (k : String) (v : JsonValue) :
    List (String × JsonValue) :=
  if acc.any (fun p => p.1 == k) then
    acc.map (fun p => if p.1 == k then (k, v) else p)
  else acc ++ [(k, v)]

mutual

/-- One JSON value at the head of the input, as Python's json scanner
recognizes it (constants in scanner order, then strings, containers and
numbers; whitespace around container elements as the scanner skips it). -/
def parseValue : Nat → List Char → Option (JsonValue × List Char)
  | 0, _ => none
  | fuel + 1, cs =>
      match cs with
      | '"' :: rest =>
          match parseStringBody (rest.length + 1) rest with
          | some (body, r) => some (.str (String.mk body), r)
          | none => none
      | '{' :: rest =>
          match skipWs rest with
          | '}' :: r => some (.obj [], r)
          | r =>
              match parseMembers fuel r [] with
              | some (fields, r1) => some (.obj fields, r1)
              | none => none
      | '[' :: rest =>
          match skipWs rest with
          | ']' :: r => some (.arr [], r)
          | r =>
              match parseElems fuel r with
              | some (elems, r1) => some (.arr elems, r1)
              | none => none
      | 'n' :: 'u' :: 'l' :: 'l' :: rest => some (.null, rest)
      | 't' :: 'r' :: 'u' :: 'e' :: rest => some (.bool true, rest)
      | 'f' :: 'a' :: 'l' :: 's' :: 'e' :: rest => some (.bool false, rest)
      | 'N' :: 'a' :: 'N' :: rest => some (.nonFinite "NaN", rest)
      | 'I' :: 'n' :: 'f' :: 'i' :: 'n' :: 'i' :: 't' :: 'y' :: rest =>
          some (.nonFinite "Infinity", rest)
      | '-' :: 'I' :: 'n' :: 'f' :: 'i' :: 'n' :: 'i' :: 't' :: 'y' :: rest =>
          some (.nonFinite "-Infinity", rest)
      | _ => parseNumber cs

/-- Members of a JSON object, positioned at a key (whitespace skipped). -/
def parseMembers : Nat → List Char → List (String × JsonValue) →
    Option (List (String × JsonValue) × List Char)
  | 0, _, _ => none
  | fuel + 1, cs, acc =>
      match cs with
      | '"' :: rest =>
          match parseStringBody (rest.length + 1) rest with
          | none => none
          | some (keyChars, r1) =>
              match skipWs r1 with
              | ':' :: r2 =>
                  match parseValue fuel (skipWs r2) with
                  | none => none
                  | some (v, r3) =>
                      match skipWs r3 with
                      | ',' :: r4 =>
                          parseMembers fuel (skipWs r4) (dictInsert acc (String.mk keyChars) v)
                      | '}' :: r4 => some (dictInsert acc (String.mk keyChars) v, r4)
                      | _ => none
              | _ => none
      | _ => none

/-- Elements of a JSON array, positioned at a value (whitespace skipped). -/
def parseElems : Nat → List Char → Option (List JsonValue × List Char)
  | 0, _ => none
  | fuel + 1, cs =>
      match parseValue fuel cs with
      | none => none
      | some (v, r1) =>
          match skipWs r1 with
          | ',' :: r2 =>
              match parseElems fuel (skipWs r2) with
              | none => none
              | some (vs, r3) => some (v :: vs, r3)
          | ']' :: r2 => some ([v], r2)
          | _ => none

end

/-- Python's `json.loads`: parse exactly one JSON value, allowing only
whitespace around it; `none` models a raised `JSONDecodeError`.  The fuel
`4 * (length + 1)` dominates the recursion depth, which advances in the
input at every step. -/
def json_loads (s : String) : Option JsonValue :=
  match parseValue (4 * (skipWs s.toList).length + 4) (skipWs s.toList) with
  | none => none
  | some (v, rest) => if (skipWs rest).isEmpty then some v else none

/-- Scan the remainder of a brace group (after its opening brace) up to and
including its closing brace; `d` is the nesting allowance still available
below this level.  This is the deterministic behaviour of the extraction
regex of `_parse_json_response` at a fixed starting position: items of a
group are non-brace characters or nested groups, a group closes at the first
closer at its own level, and a too-deep opening brace fails the match
(backtracking cannot rescue it, since no item ever consumes a bare closer). -/
def scanGroup : Nat → Nat → List Char → Option (List Char × List Char)
  | 0, _, _ => none
  | _ + 1, _, [] => none
  | fuel + 1, d, c :: rest =>
      if c == '}' then some (['}'], rest)
      else if c == '{' then
        match d with
        | 0 => none
        | d' + 1 =>
            match scanGroup fuel d' rest with
            | none => none
            | some (inner, rest1) =>
                match scanGroup fuel (d' + 1) rest1 with
                | none => none
                | some (tail, rest2) => some ('{' :: inner ++ tail, rest2)
      else
        match scanGroup fuel d rest with
        | none => none
        | some (tail, rest1) => some (c :: tail, rest1)

/-- `re.search` of the brace pattern: try every starting position from the
left; at an opening brace attempt the depth-limited match (the pattern allows
two nesting levels inside the outer braces); the first success wins. -/
def searchBraces : Nat → List Char → Option (List Char)
  | 0, _ => none
  | _ + 1, [] => none
  | fuel + 1, c :: rest =>
      if c == '{' then
        match scanGroup (rest.length + 1) 2 rest with
        | some (content, _) => some ('{' :: content)
        | none => searchBraces fuel rest
      else searchBraces fuel rest

/-- The `re.search(json_pattern, content, re.DOTALL)` call of
`_parse_json_response`, returning `match.group()`. -/
def extract_json (content : String) : Option String :=
  (searchBraces (content.toList.length + 1) content.toList).map String.mk

/-- The note of the fallback structured result. -/
def fallback_note : String :=
  "Não foi possível extrair JSON válido da resposta."

/-- `AIService._parse_json_response`: strict parse of the stripped content;
failing that, parse the first regex-extracted brace group; failing that,
return the fallback object.  It never raises. -/
def parse_json_response (content : String) : JsonValue :=
  match json_loads (pyStrip content) with
  | some v => v
  | none =>
      match extract_json content with
      | some m =>
          match json_loads m with
          | some v => v
          | none =>
              .obj [("response", .str (pyStrip content)), ("note", .str fallback_note)]
      | none =>
          .obj [("response", .str (pyStrip content)), ("note", .str fallback_note)]

/-- `OutputFormat` from `src/models/schemas.py` (an int enum, JSON = 1,
TEXT = 2; only the case distinction matters to the service). -/
inductive OutputFormat where
  | json
  | text
  deriving DecidableEq, Repr

/-- The message object of an upstream chat choice (`content` may be None). -/
structure ChatMessage where
  content : Option String
  deriving DecidableEq, Repr

/-- One upstream chat choice (`message` may be missing or falsy). -/
structure ChatChoice where
  message : Option ChatMessage
  deriving DecidableEq, Repr

/-- The upstream chat response: its list of choices. -/
structure ChatResponse where
  choices : List ChatChoice
  deriving DecidableEq, Repr

/-- Outcome of the upstream `chat.completions.create` call: a returned
response object (possibly None) or a raised exception (transport failure,
timeout, ...). -/
inductive UpstreamOutcome where
  | returns (r : Option ChatResponse)
  | raises (msg : String)
  deriving DecidableEq, Repr

/-- A Python value returned by `generate_completion`: a str on the TEXT
path, or whatever `_parse_json_response` produced on the JSON path. -/
inductive PyReturn where
  | pyStr (s : String)
  | pyJson (v : JsonValue)

/-- `AIService._build_full_prompt`: append the labeled file content when it
is non-empty, and the JSON-only instruction when JSON output is requested. -/
def build_full_prompt (prompt file_content : String) (output_format : OutputFormat) : String :=
  let p2 := if file_content ≠ "" then
    prompt ++ "\n\nConteúdo do arquivo:\n" ++ file_content
  else prompt
  if output_format = OutputFormat.json then
    p2 ++ "\n\nIMPORTANTE: Responda apenas com um JSON válido,\n            sem texto adicional antes ou depois do JSON."
  else p2

/-- `AIService.generate_completion`.  `client_ok` is whether the upstream
client was successfully initialized at construction time (`self.client` is
not None); `upstream` is the external completion API as a function of the
full prompt sent to it.  The call fails with 503 before any network attempt
when the client is missing; otherwise the response shape is validated (each
failure re-raised unchanged past the `except HTTPException` clause, any
other exception collapsed to the generic 500) and the content is normalized
per the requested output format.  The boolean records whether the upstream
call was attempted. -/
def generate_completion (client_ok : Bool) (upstream : String → UpstreamOutcome)
    (prompt : String) (file_content : String) (output_format : OutputFormat) :
    Except HTTPException PyReturn × Bool :=
  if client_ok = false then
    (.error ⟨503, "Serviço de IA não disponível."⟩, false)
  else
    match upstream (build_full_prompt prompt file_content output_format) with
    | .raises _ => (.error ⟨500, "Erro ao processar solicitação de IA."⟩, true)
    | .returns none => (.error ⟨500, "Resposta inválida da API de IA."⟩, true)
    | .returns (some resp) =>
        match resp.choices with
        | [] => (.error ⟨500, "Resposta da API não contém choices."⟩, true)
        | choice :: _ =>
            match choice.message with
            | none => (.error ⟨500, "Resposta da API não contém message."⟩, true)
            | some msg =>
                match msg.content with
                | none => (.error ⟨500, "Conteúdo da resposta é vazio."⟩, true)
                | some content =>
                    match output_format with
                    | .json => (.ok (.pyJson (parse_json_response content)), true)
                    | .text => (.ok (.pyStr content), true)

/-- An upstream API that replies with the given message content. -/
def upstream_reply (content : String) : String → UpstreamOutcome :=
  fun _ => .returns (some ⟨[⟨some ⟨some content⟩⟩]⟩)

/-! ### Helper lemmas about the file processor -/

/-- A file with a non-empty name and an allowed extension validates. -/
theorem validate_file_ok (allowed : List String) (f : UploadFile)
    (h1 : f.filename ≠ "") (h2 : allowed.contains (file_extension f.filename) = true) :
    validate_file allowed f = .ok () := by
  unfold validate_file
  rw [if_neg h1, if_pos h2]

/-- When every file validates, the validation loop succeeds. -/
theorem validate_all_ok (allowed : List String) (files : List UploadFile)
    (h : ∀ f ∈ files, f.filename ≠ "" ∧ allowed.contains (file_extension f.filename) = true) :
    validate_all allowed files = .ok () := by
  induction files with
  | nil => rfl
  | cons f rest ih =>
      have hf := h f (List.mem_cons_self f rest)
      simp only [validate_all]
      rw [validate_file_ok allowed f hf.1 hf.2]
      exact ih (fun g hg => h g (List.mem_cons_of_mem f hg))

/-- A readable file within the size limit processes to its decoded content. -/
theorem single_result_ok (maxSize : Nat) (decode : List Nat → String) (f : UploadFile)
    (h1 : f.readOk = true) (h2 : f.bytes.length ≤ maxSize) :
    single_result maxSize decode f = .ok (f.filename, decode f.bytes) := by
  simp [single_result, h1, Nat.not_lt.mpr h2]

/-- The gathered results are the per-file results, in input order, for any
task index and any temp-path supply. -/
theorem gather_tasks_fst (maxSize : Nat) (decode : List Nat → String)
    (tempPath : Nat → String) (files : List UploadFile) (i : Nat) :
    (gather_tasks maxSize decode tempPath files i).1 =
      files.map (fun f => single_result maxSize decode f) := by
  induction files generalizing i with
  | nil => rfl
  | cons f rest ih => simp [gather_tasks, process_single_file, ih]

/-- Aggregating all-successful results collects names and contents in order. -/
theorem collect_results_all_ok (maxSize : Nat) (decode : List Nat → String)
    (files : List UploadFile)
    (h : ∀ f ∈ files, single_result maxSize decode f = .ok (f.filename, decode f.bytes)) :
    collect_results (files.zip (files.map (fun f => single_result maxSize decode f))) =
      .ok (files.map (fun f => f.filename), files.map (fun f => decode f.bytes)) := by
  induction files with
  | nil => rfl
  | cons f rest ih =>
      have hf := h f (List.mem_cons_self f rest)
      simp only [List.map_cons, List.zip_cons_cons, hf, collect_results]
      rw [ih (fun g hg => h g (List.mem_cons_of_mem f hg))]

/-- An invalid file makes `_validate_file` raise a 400 error. -/
theorem validate_file_err (allowed : List String) (f : UploadFile)
    (h : f.filename = "" ∨ allowed.contains (file_extension f.filename) = false) :
    ∃ e, validate_file allowed f = .error e ∧ e.status_code = 400 := by
  by_cases h0 : f.filename = ""
  · exact ⟨⟨400, "Nome do arquivo não pode ser vazio."⟩, by simp [validate_file, h0], rfl⟩
  · have h1 : allowed.contains (file_extension f.filename) = false := h.resolve_left h0
    have hne : ¬ (allowed.contains (file_extension f.filename) = true) := by
      rw [h1]; exact Bool.false_ne_true
    exact ⟨⟨400, "Tipo de arquivo não permitido: " ++ file_extension f.filename ++ ". "⟩,
      by unfold validate_file; rw [if_neg h0, if_neg hne], rfl⟩

/-- With an invalid file anywhere in the list, the validation loop raises a
400 error. -/
theorem validate_all_err (allowed : List String) (files : List UploadFile)
    (h : ∃ f ∈ files, f.filename = "" ∨ allowed.contains (file_extension f.filename) = false) :
    ∃ e, validate_all allowed files = .error e ∧ e.status_code = 400 := by
  induction files with
  | nil =>
      obtain ⟨f, hf, _⟩ := h
      exact absurd hf (List.not_mem_nil f)
  | cons g rest ih =>
      by_cases hg : g.filename = "" ∨ allowed.contains (file_extension g.filename) = false
      · obtain ⟨e, he, h400⟩ := validate_file_err allowed g hg
        refine ⟨e, ?_, h400⟩
        simp only [validate_all]
        rw [he]
      · have hg1 : g.filename ≠ "" := fun hc => hg (Or.inl hc)
        have hg2 : allowed.contains (file_extension g.filename) = true := by
          cases hcc : allowed.contains (file_extension g.filename) with
          | false => exact absurd (Or.inr hcc) hg
          | true => rfl
        obtain ⟨e, he, h400⟩ := by
          refine ih ?_
          obtain ⟨f, hf, hbad⟩ := h
          rcases List.mem_cons.mp hf with hfg | hmem
          · exact absurd (hfg ▸ hbad) hg
          · exact ⟨f, hmem, hbad⟩
        refine ⟨e, ?_, h400⟩
        simp only [validate_all]
        rw [validate_file_ok allowed g hg1 hg2]
        exact he

/-- One task creates exactly its own temp file and unlinks exactly it. -/
theorem single_trace_cleanup (maxSize : Nat) (f : UploadFile) (p : String) :
    temp_creates (single_trace maxSize f p) = [p] ∧
      temp_unlinks (single_trace maxSize f p) = [p] := by
  unfold single_trace temp_creates temp_unlinks
  split
  · simp [List.filterMap]
  · split <;> simp [List.filterMap]

/-- Across the gathered tasks, created temp paths equal unlinked temp paths,
in order. -/
theorem gather_tasks_cleanup (maxSize : Nat) (decode : List Nat → String)
    (tempPath : Nat → String) (files : List UploadFile) (i : Nat) :
    temp_creates (gather_tasks maxSize decode tempPath files i).2 =
      temp_unlinks (gather_tasks maxSize decode tempPath files i).2 := by
  induction files generalizing i with
  | nil => rfl
  | cons f rest ih =>
      simp only [gather_tasks, process_single_file, temp_creates, temp_unlinks,
        List.filterMap_append]
      have h1 := single_trace_cleanup maxSize f (tempPath i)
      have h2 := ih (i + 1)
      simp only [temp_creates, temp_unlinks] at h1 h2
      rw [h1.1, h1.2, h2]

/-- A slash-free character list is a single path component for `splitSlash`. -/
theorem splitSlash_no_slash (cs : List Char) (h : ∀ c ∈ cs, c ≠ '/') :
    splitSlash cs = [cs] := by
  induction cs with
  | nil => rfl
  | cons c cs ih =>
      have hc : c ≠ '/' := h c (List.mem_cons_self c cs)
      simp only [splitSlash, if_neg hc]
      rw [ih (fun d hd => h d (List.mem_cons_of_mem c hd))]

/-- A slash-free filename is its own final path component. -/
theorem pathLastComponent_no_slash (cs : List Char) (h : ∀ c ∈ cs, c ≠ '/') :
    pathLastComponent cs = cs := by
  cases cs with
  | nil => rfl
  | cons c cs' =>
      unfold pathLastComponent
      rw [splitSlash_no_slash _ h]
      rfl

/-- A dot-free name has no last dot. -/
theorem rfindDot_none (cs : List Char) (h : ∀ c ∈ cs, c ≠ '.') :
    rfindDot cs = none := by
  induction cs with
  | nil => rfl
  | cons c cs ih =>
      simp only [rfindDot]
      rw [ih (fun d hd => h d (List.mem_cons_of_mem c hd))]
      simp [h c (List.mem_cons_self c cs)]

/-- A name ending in a dot has its last dot at the final index. -/
theorem rfindDot_last_dot (cs : List Char) (h : cs.getLast? = some '.') :
    rfindDot cs = some (cs.length - 1) := by
  induction cs with
  | nil => simp at h
  | cons c cs ih =>
      cases cs with
      | nil =>
          rw [List.getLast?_singleton] at h
          have hc := Option.some.inj h
          subst hc
          rfl
      | cons d cs' =>
          have h' : (d :: cs').getLast? = some '.' := by
            rwa [List.getLast?_cons_cons] at h
          rw [show rfindDot (c :: d :: cs') =
              (match rfindDot (d :: cs') with
               | some i => some (i + 1)
               | none => if c = '.' then some 0 else none) from rfl]
          simp only [ih h']
          simp only [List.length_cons]
          congr 1

/-- A filename with no dot, a trailing dot, or only a single leading dot has
an empty extracted extension (the `pathlib` suffix is empty). -/
theorem file_extension_empty (s : String)
    (hslash : ∀ c ∈ s.toList, c ≠ '/')
    (hdot : (∀ c ∈ s.toList, c ≠ '.') ∨ s.toList.getLast? = some '.' ∨
      (∃ t, s.toList = '.' :: t ∧ ∀ c ∈ t, c ≠ '.')) :
    file_extension s = "" := by
  unfold file_extension
  rw [pathLastComponent_no_slash _ hslash]
  have hsuf : pySuffix s.toList = [] := by
    rcases hdot with h | h | ⟨t, ht, hnd⟩
    · unfold pySuffix
      rw [rfindDot_none _ h]
    · unfold pySuffix
      have hno : ¬ (0 < s.toList.length - 1 ∧ s.toList.length - 1 < s.toList.length - 1) := by
        intro hcon
        exact Nat.lt_irrefl _ hcon.2
      simp only [rfindDot_last_dot _ h]
      rw [if_neg hno]
    · unfold pySuffix
      rw [ht]
      simp only [rfindDot]
      rw [rfindDot_none _ hnd]
      simp
  rw [hsuf]
  rfl

/-! ### The file-processor claims -/

/-- C1: for every non-empty list of files that all pass validation
(non-empty filename, allowed extension), read successfully, and are within
the size limit, `process_files` returns the filenames exactly in input order
and the combined text equal to the newline-join of each file's decoded
content in that same order — this is the deterministic denotation of the
concurrent gather, whose results come back indexed in input order. -/
theorem process_files_preserves_input_order
    (maxSize : Nat) (allowed : List String) (decode : List Nat → String)
    (files : List UploadFile) (tempPath : Nat → String)
    (hne : files ≠ [])
    (hval : ∀ f ∈ files, f.filename ≠ "" ∧ allowed.contains (file_extension f.filename) = true)
    (hread : ∀ f ∈ files, f.readOk = true ∧ f.bytes.length ≤ maxSize) :
    (process_files maxSize allowed decode files tempPath).1 =
      .ok (files.map (fun f => f.filename),
        String.intercalate "\n" (files.map (fun f => decode f.bytes))) := by
  have hv := validate_all_ok allowed files hval
  have hc := collect_results_all_ok maxSize decode files
    (fun f hf => single_result_ok maxSize decode f (hread f hf).1 (hread f hf).2)
  have hg := gather_tasks_fst maxSize decode tempPath files 0
  cases files with
  | nil => exact absurd rfl hne
  | cons f rest =>
      simp only [process_files, List.isEmpty_cons, Bool.false_eq_true, if_false]
      rw [hv, hg, hc]

/-- C1 witness: two concrete valid files process to their names in order and
the newline-join of their decoded contents. -/
theorem process_files_preserves_input_order_witness :
    (process_files 100 allowed_extensions (fun bs => toString bs.length)
      [⟨"a.txt", [65], true⟩, ⟨"b.md", [66, 67], true⟩] (fun i => toString i)).1 =
      .ok (["a.txt", "b.md"], "1\n2") :=
  process_files_preserves_input_order 100 allowed_extensions (fun bs => toString bs.length)
    [⟨"a.txt", [65], true⟩, ⟨"b.md", [66, 67], true⟩] (fun i => toString i)
    (by decide) (by decide) (by decide)

/-- C2: with any invalid file (empty filename or disallowed extension) in
the input, `process_files` fails with a 400 validation error and its event
trace is empty: validation of all files completes sequentially before any
read starts, so no upload is read, no temporary file is created, and no
partial name list or content is produced. -/
theorem invalid_file_rejected_before_any_read
    (maxSize : Nat) (allowed : List String) (decode : List Nat → String)
    (files : List UploadFile) (tempPath : Nat → String)
    (h : ∃ f ∈ files, f.filename = "" ∨ allowed.contains (file_extension f.filename) = false) :
    ∃ e, process_files maxSize allowed decode files tempPath = (.error e, []) ∧
      e.status_code = 400 := by
  obtain ⟨e, he, h400⟩ := validate_all_err allowed files h
  refine ⟨e, ?_, h400⟩
  obtain ⟨f, hf, _⟩ := h
  cases files with
  | nil => exact absurd hf (List.not_mem_nil _)
  | cons g rest =>
      simp only [process_files, List.isEmpty_cons, Bool.false_eq_true, if_false]
      rw [he]

/-- C2 witness: a single file with a disallowed extension is rejected with a
400 error and an empty event trace. -/
theorem invalid_file_rejected_before_any_read_witness :
    ∃ e, process_files 10 allowed_extensions (fun _ => "") [⟨"virus.exe", [65], true⟩]
      (fun _ => "t") = (.error e, []) ∧ e.status_code = 400 :=
  invalid_file_rejected_before_any_read 10 allowed_extensions (fun _ => "")
    [⟨"virus.exe", [65], true⟩] (fun _ => "t")
    ⟨⟨"virus.exe", [65], true⟩, by decide, Or.inr (by decide)⟩

/-- C4 (code bug): a file over the size limit does make `process_files`
fail, but the size check's `HTTPException(400, 'Tamanho do arquivo excede o
limite permitido.')` is swallowed by the blanket `except Exception` of
`_process_single_file` (which, unlike `generate_completion`, has no
`except HTTPException: raise` guard) and replaced by the server-side
`HTTPException(500, 'Erro interno ao processar o arquivo.')`;
`process_files` then re-wraps that as a generic 400 whose detail embeds the
internal 500 message — the size-specific validation message never surfaces. -/
theorem size_limit_error_swallowed_to_500 :
    (process_single_file 1 (fun _ => "") ⟨"a.txt", [65, 66], true⟩ "/tmp/t0").1 =
      .error ⟨500, "Erro interno ao processar o arquivo."⟩ ∧
    (process_files 1 allowed_extensions (fun _ => "") [⟨"a.txt", [65, 66], true⟩]
      (fun _ => "/tmp/t0")).1 =
      .error ⟨400,
        "Erro ao processar o arquivo a.txt: : 500: Erro interno ao processar o arquivo."⟩ :=
  ⟨rfl, rfl⟩

/-- C7: on every path — success, size failure, read failure, validation
failure, empty input — the temporary files created during a `process_files`
run are exactly the ones unlinked before it returns, in order: the
`finally` block of each per-file task removes the task's own temp file. -/
theorem temp_files_always_cleaned_up
    (maxSize : Nat) (allowed : List String) (decode : List Nat → String)
    (files : List UploadFile) (tempPath : Nat → String) :
    temp_creates (process_files maxSize allowed decode files tempPath).2 =
      temp_unlinks (process_files maxSize allowed decode files tempPath).2 := by
  unfold process_files
  split
  · rfl
  · split
    · rfl
    · split
      · exact gather_tasks_cleanup maxSize decode tempPath files 0
      · exact gather_tasks_cleanup maxSize decode tempPath files 0

/-- C10: a non-empty filename with no extractable extension — no dot at all,
a trailing dot, or only a single leading dot — fails validation with the
disallowed-extension error (the extracted extension is the empty string,
which is not in the allow-set), and `process_files` on any list containing
such a file fails with a 400 error before any read. -/
theorem extensionless_filename_rejected
    (maxSize : Nat) (decode : List Nat → String) (files : List UploadFile)
    (tempPath : Nat → String) (f : UploadFile)
    (hmem : f ∈ files) (hne : f.filename ≠ "")
    (hslash : ∀ c ∈ f.filename.toList, c ≠ '/')
    (hdot : (∀ c ∈ f.filename.toList, c ≠ '.') ∨ f.filename.toList.getLast? = some '.' ∨
      (∃ t, f.filename.toList = '.' :: t ∧ ∀ c ∈ t, c ≠ '.')) :
    validate_file allowed_extensions f =
      .error ⟨400, "Tipo de arquivo não permitido: . "⟩ ∧
    ∃ e, process_files maxSize allowed_extensions decode files tempPath = (.error e, []) ∧
      e.status_code = 400 := by
  have hext : file_extension f.filename = "" := file_extension_empty _ hslash hdot
  have hcontains : allowed_extensions.contains (file_extension f.filename) = false := by
    rw [hext]; rfl
  constructor
  · unfold validate_file
    rw [if_neg hne, if_neg (by rw [hcontains]; exact Bool.false_ne_true)]
    rw [hext]
    rfl
  · obtain ⟨e, he, h400⟩ :=
      validate_all_err allowed_extensions files ⟨f, hmem, Or.inr hcontains⟩
    refine ⟨e, ?_, h400⟩
    cases files with
    | nil => exact absurd hmem (List.not_mem_nil _)
    | cons g rest =>
        simp only [process_files, List.isEmpty_cons, Bool.false_eq_true, if_false]
        rw [he]

/-- C10 witness: the dotless filename `README` is rejected with the
disallowed-extension error, and the whole batch fails with a 400. -/
theorem extensionless_filename_rejected_witness :
    validate_file allowed_extensions ⟨"README", [], true⟩ =
      .error ⟨400, "Tipo de arquivo não permitido: . "⟩ ∧
    ∃ e, process_files 10 allowed_extensions (fun _ => "") [⟨"README", [], true⟩]
      (fun _ => "t") = (.error e, []) ∧ e.status_code = 400 :=
  extensionless_filename_rejected 10 (fun _ => "") [⟨"README", [], true⟩] (fun _ => "t")
    ⟨"README", [], true⟩ (by decide) (by decide) (by decide) (Or.inl (by decide))

/-! ### Helper lemmas about the completion client -/

/-- With an initialized client and an upstream reply carrying `content`, the
JSON path returns exactly what `_parse_json_response` makes of the content. -/
theorem generate_completion_json_path (prompt file_content content : String)
    (upstream : String → UpstreamOutcome)
    (hup : upstream (build_full_prompt prompt file_content .json) =
      .returns (some ⟨[⟨some ⟨some content⟩⟩]⟩)) :
    generate_completion true upstream prompt file_content .json =
      (.ok (.pyJson (parse_json_response content)), true) := by
  unfold generate_completion
  rw [if_neg (by decide : ¬ (true = false))]
  rw [hup]

/-- When the strict parse of the stripped content fails and no extracted
brace group parses, `_parse_json_response` returns the fallback object. -/
theorem parse_json_response_fallback (content : String)
    (h1 : json_loads (pyStrip content) = none)
    (h2 : ∀ m, extract_json content = some m → json_loads m = none) :
    parse_json_response content =
      .obj [("response", .str (pyStrip content)), ("note", .str fallback_note)] := by
  unfold parse_json_response
  rw [h1]
  cases hm : extract_json content with
  | none => rfl
  | some m =>
      show (match json_loads m with
        | some v => v
        | none => .obj [("response", .str (pyStrip content)), ("note", .str fallback_note)]) =
        .obj [("response", .str (pyStrip content)), ("note", .str fallback_note)]
      rw [h2 m hm]

/-! ### The completion-client claims -/

/-- C3 (amended): for every upstream reply whose stripped text neither
parses strictly as JSON nor contains an extractable brace-delimited JSON
substring, `generate_completion` with JSON format does not raise: it returns
the fallback structured result mapping `"response"` to the
whitespace-stripped original content and `"note"` to the explanation.  The
JSON-normalization step never aborts the request on malformed JSON. -/
theorem json_fallback_never_raises (prompt file_content content : String)
    (h1 : json_loads (pyStrip content) = none)
    (h2 : ∀ m, extract_json content = some m → json_loads m = none) :
    generate_completion true (upstream_reply content) prompt file_content .json =
      (.ok (.pyJson (.obj [("response", .str (pyStrip content)),
        ("note", .str fallback_note)])), true) := by
  rw [generate_completion_json_path prompt file_content content (upstream_reply content) rfl]
  rw [parse_json_response_fallback content h1 h2]

/-- C3 witness: the reply `not json at all` yields the fallback object, not
an error. -/
theorem json_fallback_never_raises_witness :
    generate_completion true (upstream_reply "not json at all") "p" "" .json =
      (.ok (.pyJson (.obj [("response", .str "not json at all"),
        ("note", .str fallback_note)])), true) :=
  json_fallback_never_raises "p" "" "not json at all" rfl
    (fun m hm => by
      rw [show extract_json "not json at all" = none from rfl] at hm
      exact Option.noConfusion hm)

/-- C3 counterexample: the claim maps `"response"` to the original content,
but the code maps it to `content.strip()`: at the reply `" x "` (in the
claim's scope: it is not JSON and has no braces) the fallback carries the
stripped `"x"`, which differs from the original `" x "`. -/
theorem json_fallback_strips_the_content :
    json_loads (pyStrip " x ") = none ∧
    extract_json " x " = none ∧
    parse_json_response " x " =
      .obj [("response", .str "x"), ("note", .str fallback_note)] ∧
    "x" ≠ " x " :=
  ⟨rfl, rfl, rfl, by decide⟩

/-- C5: for every reply whose stripped text is not valid JSON but from which
the brace-matching search extracts a substring that parses, the JSON path
returns the parse of that extracted substring. -/
theorem json_brace_extraction_path (prompt file_content content : String)
    (m : String) (v : JsonValue)
    (h1 : json_loads (pyStrip content) = none)
    (h2 : extract_json content = some m)
    (h3 : json_loads m = some v) :
    generate_completion true (upstream_reply content) prompt file_content .json =
      (.ok (.pyJson v), true) := by
  rw [generate_completion_json_path prompt file_content content (upstream_reply content) rfl]
  have hp : parse_json_response content = v := by
    unfold parse_json_response
    rw [h1, h2]
    show (match json_loads m with
      | some v => v
      | none => .obj [("response", .str (pyStrip content)), ("note", .str fallback_note)]) = v
    rw [h3]
  rw [hp]

/-- C5 witness: the reply `Sure! \x7b"a":1\x7d thanks` yields exactly the
mapping from `a` to 1, extracted by brace matching. -/
theorem json_brace_extraction_path_witness :
    generate_completion true (upstream_reply "Sure! \x7b\"a\":1\x7d thanks") "p" "" .json =
      (.ok (.pyJson (.obj [("a", .num 1 0)])), true) :=
  json_brace_extraction_path "p" "" "Sure! \x7b\"a\":1\x7d thanks" "\x7b\"a\":1\x7d"
    (.obj [("a", .num 1 0)]) rfl rfl rfl

/-- C6: round-trip — for every reply whose stripped content is valid JSON,
the JSON path returns exactly its parse, with no wrapper fields added. -/
theorem json_strict_roundtrip (prompt file_content content : String) (v : JsonValue)
    (h : json_loads (pyStrip content) = some v) :
    generate_completion true (upstream_reply content) prompt file_content .json =
      (.ok (.pyJson v), true) := by
  rw [generate_completion_json_path prompt file_content content (upstream_reply content) rfl]
  have hp : parse_json_response content = v := by
    unfold parse_json_response
    rw [h]
  rw [hp]

/-- C6 witness: a valid-JSON reply (with surrounding whitespace) round-trips
to exactly its parse. -/
theorem json_strict_roundtrip_witness :
    generate_completion true (upstream_reply " \x7b\"k\": true\x7d ") "p" "" .json =
      (.ok (.pyJson (.obj [("k", .bool true)])), true) :=
  json_strict_roundtrip "p" "" " \x7b\"k\": true\x7d " (.obj [("k", .bool true)]) rfl

/-- C8: if the upstream client was never successfully initialized, every
call to `generate_completion` — for all prompts, file contents, formats and
upstream behaviours — fails immediately with the 503 service-unavailable
error, and the upstream call is never attempted. -/
theorem uninitialized_client_fails_without_network
    (upstream : String → UpstreamOutcome) (prompt file_content : String)
    (fmt : OutputFormat) :
    generate_completion false upstream prompt file_content fmt =
      (.error ⟨503, "Serviço de IA não disponível."⟩, false) := rfl

/-- C9 (code bug): the JSON path returns the strict parse unconditionally,
so a reply that is a bare JSON number comes back as that bare number — not a
string-keyed mapping, contradicting the code's own `-> dict` annotation on
`_parse_json_response` (and `-> str | dict` on `generate_completion`). -/
theorem json_path_can_return_bare_number :
    generate_completion true (upstream_reply "42") "p" "" .json =
      (.ok (.pyJson (.num 42 0)), true) ∧
    (JsonValue.num 42 0).isObj = false :=
  ⟨rfl, rfl⟩
